import Mathlib

/-!
Verification of the taxforce simulation core against its specification.
All Python floats are modelled as rationals; every `np.random` /
`random` draw is an explicit parameter, so each embedded operation is a
pure function of its inputs and the supplied draws.
-/

namespace TaxForce

/-- Embeds `clip` from `src/core/filters.py` (also duplicated in
`beliefs.py` and `interventions/letter.py`): `max(low, min(high, value))`. -/
def clip (value low high : ℚ) : ℚ := max low (min high value)

/-- Occupation variant of an agent (`"private"` / `"business"`). -/
inductive Occupation | priv | business
deriving DecidableEq, Repr

/-- Behavior variant, fixed at construction (`behaviors.py`). -/
inductive BehaviorType | honest | dishonest
deriving DecidableEq, Repr

/-- The behavioral trait scalars of `AgentTraits`
(`src/core/agents/base_agent.py`), with the short field names
(`pso`, `p_trust`) that `filters.py`, `beliefs.py` and the
interventions read and write. -/
structure AgentTraits where
  personal_norms : ℚ
  subjective_audit_prob : ℚ
  pso : ℚ
  p_trust : ℚ
  social_norms : ℚ
  societal_norms : ℚ
  risk_aversion : ℚ
deriving DecidableEq, Repr

/-- The fields of a neighbor that `social_influence_filter` reads:
`n.true_income` and `n.prev_evasion_rate`. -/
structure NeighborView where
  true_income : ℚ
  prev_evasion_rate : ℚ
deriving DecidableEq, Repr

/-- The per-agent state read by the decision pipeline
(`BaseAgent` plus the memoized `calculate_opportunity()` value φ). -/
structure Agent where
  true_income : ℚ
  declared_income : ℚ
  traits : AgentTraits
  temporary_audit_boost : ℚ
  prev_evasion_rate : ℚ
  opportunity : ℚ
  neighbors : List NeighborView
deriving DecidableEq, Repr

/-- The `beta` weights of `config.filters["beta"][occupation]`. -/
structure Beta where
  PN : ℚ
  SN : ℚ
  StN : ℚ
  PT : ℚ
  PSO : ℚ
deriving DecidableEq, Repr

/-- The slice of the model/config state read by the filters:
`config.filters`, `model.social_influence`, `model.penalty_rate`,
`model.tax_rate`. -/
structure FilterConfig where
  beta : Occupation → Beta
  tci_weight : BehaviorType → ℚ
  social_influence : ℚ
  penalty_rate : ℚ
  tax_rate : ℚ

/-- Embeds `opportunity_filter` (`src/core/filters.py:9`):
`agent.true_income * agent.calculate_opportunity()`. -/
def opportunity_filter (agent : Agent) : ℚ :=
  agent.true_income * agent.opportunity

/-- Embeds `normative_filter` (`src/core/filters.py:14`). -/
def normative_filter (cfg : FilterConfig) (occupation : Occupation)
    (behavior_type : BehaviorType) (agent : Agent) (max_concealable : ℚ) : ℚ :=
  let beta := cfg.beta occupation
  let traits := agent.traits
  let norm : ℚ → ℚ := fun val => (val - 1) / 4
  let raw_tci := beta.PN * norm traits.personal_norms
    + beta.SN * norm traits.social_norms
    + beta.StN * norm traits.societal_norms
    + beta.PT * norm traits.p_trust
    + beta.PSO * norm traits.pso
  let beta_sum := beta.PN + beta.SN + beta.StN + beta.PT + beta.PSO
  let tci0 := if beta_sum > 0 then raw_tci / beta_sum else raw_tci
  let tci := max 0 (min 1 tci0)
  max_concealable * (1 - cfg.tci_weight behavior_type * tci)

/-- Python `statistics.median` / `np.median`: sort ascending, middle element for
odd length, mean of the two middle elements for even length. -/
def pyMedian (l : List ℚ) : ℚ :=
  let s := l.insertionSort (· ≤ ·)
  let n := s.length
  if n % 2 = 1 then s.getD (n / 2) 0
  else (s.getD (n / 2 - 1) 0 + s.getD (n / 2) 0) / 2

/-- Embeds `social_influence_filter` (`src/core/filters.py:39`). -/
def social_influence_filter (cfg : FilterConfig) (agent : Agent)
    (willingness max_concealable : ℚ) : ℚ :=
  if max_concealable ≤ 0 then 0
  else
    let own_rate := willingness / max_concealable
    if agent.neighbors = [] then willingness
    else
      let neighbor_rates :=
        (agent.neighbors.filter (fun n => 0 < n.true_income)).map
          (fun n => n.prev_evasion_rate)
      if neighbor_rates = [] then willingness
      else
        let omega := cfg.social_influence
        let median_rate := pyMedian neighbor_rates
        let adjusted_rate := (1 - omega) * own_rate + omega * median_rate
        clip adjusted_rate 0 1 * max_concealable

/-- Embeds `rational_choice_filter` (`src/core/filters.py:62`). -/
def rational_choice_filter (cfg : FilterConfig) (agent : Agent)
    (willingness : ℚ) : ℚ :=
  if willingness ≤ 0 then 0
  else
    let p_raw := agent.traits.subjective_audit_prob + agent.temporary_audit_boost
    let p := p_raw / 100
    let f := cfg.penalty_rate
    let rho := agent.traits.risk_aversion
    let threshold := 1 / (1 + f)
    let evasion_rate :=
      if p ≥ threshold then 0
      else if p ≤ 0 then 1
      else
        let margin := (threshold - p) / threshold
        if margin < 1/5 then
          let rho_normalized := (rho - 1/2) / (9/2)
          let deterrence_chance := (1/5 - margin) * rho_normalized
          if deterrence_chance > 3/10 then (0:ℚ) else 1
        else 1
    evasion_rate * willingness

/-- Embeds the `BaseAgent.evaded_income` property
(`src/core/agents/base_agent.py:62`). -/
def evaded_income (a : Agent) : ℚ := a.true_income - a.declared_income

/-- Embeds the `BaseAgent.is_compliant` property
(`src/core/agents/base_agent.py:66`):
`declared_income >= true_income - 0.01`. -/
def is_compliant (a : Agent) : Bool := a.true_income - 1/100 ≤ a.declared_income

/-- The outcome record built by `AuditIntervention.apply`
(`src/core/interventions/audit.py:27`). -/
structure AuditOutcome where
  compliant : Bool
  penalty : ℚ
deriving DecidableEq, Repr

/-- Embeds the penalty computation of `AuditIntervention.apply`
(`src/core/interventions/audit.py:21-27`): zero when the agent was
compliant, otherwise `evaded_income * tax_rate * penalty_rate`.  The
SME audit-history draw of lines 30-36 is embedded separately as
`audit_type_draw`; it does not touch the outcome. -/
def audit_apply (cfg : FilterConfig) (agent : Agent) : AuditOutcome :=
  let was_compliant := is_compliant agent
  let penalty :=
    if was_compliant then 0
    else evaded_income agent * cfg.tax_rate * cfg.penalty_rate
  { compliant := was_compliant, penalty := penalty }

/-- The two audit types drawn in `AuditIntervention.apply`
(`src/core/interventions/audit.py:32`). -/
inductive AuditType | administratief | boekenonderzoek
deriving DecidableEq, Repr

/-- The `np.random.choice(["administratief","boekenonderzoek"], p=[admin,books])`
draw of `AuditIntervention.apply`, with the uniform draw `u ∈ [0,1)` explicit. -/
def audit_type_draw (admin_prob : ℚ) (u : ℚ) : AuditType :=
  if u < admin_prob then .administratief else .boekenonderzoek

/-! ### Honest-agent error model (`src/core/errors.py`) -/

/-- SME digitalization levels. -/
inductive Digitalization | low | medium | high
deriving DecidableEq, Repr

/-- SME size classes. -/
inductive SizeClass | micro | small | medium
deriving DecidableEq, Repr

/-- The business attributes read by `calculate_error_probability`
(`src/core/errors.py:12-28`); `sector_high_risk` is
`config.sme["sectors"][agent.sector]["risk"] == "high"`. -/
structure BusinessAttrs where
  digitalization : Digitalization
  cash_intensity : Bool
  has_advisor : Bool
  size_class : SizeClass
  sector_high_risk : Bool
deriving DecidableEq, Repr

/-- The `config["error_model"]` section read by `src/core/errors.py`. -/
structure ErrorCfg where
  enabled : Bool
  base_private : ℚ
  base_business : ℚ
  digi_low_bonus : ℚ
  digi_high_reduction : ℚ
  cash_bonus : ℚ
  advisor_reduction : ℚ
  micro_bonus : ℚ
  high_risk_bonus : ℚ
  pso_reduction_factor : ℚ
  trust_reduction_factor : ℚ
  norms_reduction_factor : ℚ
  min_probability : ℚ
  max_probability : ℚ
  magnitude_min : ℚ
  magnitude_max : ℚ
  under_report_prob : ℚ
deriving DecidableEq, Repr

/-- Embeds `calculate_error_probability` (`src/core/errors.py:4-45`).
For a private agent `attrs` is ignored (`occupation == "private"` branch). -/
def calculate_error_probability (cfg : ErrorCfg) (occupation : Occupation)
    (attrs : BusinessAttrs) (traits : AgentTraits) : ℚ :=
  let base :=
    match occupation with
    | .priv => cfg.base_private
    | .business =>
      let b := cfg.base_business
      let b := if attrs.digitalization = .low then b + cfg.digi_low_bonus
               else if attrs.digitalization = .high then b - cfg.digi_high_reduction
               else b
      let b := if attrs.cash_intensity then b + cfg.cash_bonus else b
      let b := if attrs.has_advisor then b - cfg.advisor_reduction else b
      let b := if attrs.size_class = .micro then b + cfg.micro_bonus else b
      if attrs.sector_high_risk then b + cfg.high_risk_bonus else b
  let pso_norm := (traits.pso - 1) / 4
  let base := base * (1 - cfg.pso_reduction_factor * pso_norm)
  let trust_norm := (traits.p_trust - 1) / 4
  let base := base * (1 - cfg.trust_reduction_factor * trust_norm)
  let norms_norm := (traits.personal_norms - 1) / 4
  let base := base * (1 - cfg.norms_reduction_factor * norms_norm)
  max cfg.min_probability (min cfg.max_probability base)

/-- Embeds `calculate_error_amount` (`src/core/errors.py:48-57`) with the
two draws explicit: `u ∈ [0,1)` feeds `np.random.uniform(min,max)` as
`min + u*(max-min)` and `d ∈ [0,1)` decides the direction
(`1` if `d < under_report_prob` else `-1`). -/
def calculate_error_amount (cfg : ErrorCfg) (true_income : ℚ) (u d : ℚ) : ℚ :=
  let magnitude := cfg.magnitude_min + u * (cfg.magnitude_max - cfg.magnitude_min)
  let direction : ℚ := if d < cfg.under_report_prob then 1 else -1
  true_income * magnitude * direction

/-- Embeds `apply_error` (`src/core/errors.py:60-75`); `r_fire` is the
`np.random.random()` draw gating the error.  Returns
`(declared, error_occurred, error_amount)`. -/
def apply_error (cfg : ErrorCfg) (occupation : Occupation)
    (attrs : BusinessAttrs) (agent : Agent) (r_fire u d : ℚ) :
    ℚ × Bool × ℚ :=
  if ¬ cfg.enabled then (agent.true_income, false, 0)
  else
    let error_prob := calculate_error_probability cfg occupation attrs agent.traits
    if r_fire ≥ error_prob then (agent.true_income, false, 0)
    else
      let error_amount := calculate_error_amount cfg agent.true_income u d
      let declared := max 0 (agent.true_income - error_amount)
      (declared, true, error_amount)

/-- Embeds `HonestBehavior.decide` (`src/core/behaviors.py:17-24`). -/
def honest_decide (cfg : ErrorCfg) (occupation : Occupation)
    (attrs : BusinessAttrs) (agent : Agent) (initial_step : Bool)
    (r_fire u d : ℚ) : ℚ :=
  if initial_step then agent.true_income
  else (apply_error cfg occupation attrs agent r_fire u d).1

/-- Embeds `DishonestBehavior.decide` (`src/core/behaviors.py:27-38`). -/
def dishonest_decide (cfg : FilterConfig) (occupation : Occupation)
    (agent : Agent) (initial_step : Bool) : ℚ :=
  let max_concealable := opportunity_filter agent
  let willingness := normative_filter cfg occupation .dishonest agent max_concealable
  let willingness :=
    if ¬ initial_step then social_influence_filter cfg agent willingness max_concealable
    else willingness
  let final_evasion := rational_choice_filter cfg agent willingness
  max 0 (agent.true_income - final_evasion)

/-! ### Belief-update strategies (`src/core/beliefs.py`) -/

/-- The `belief_update` config section read by `CustomStrategy`. -/
structure BeliefCfg where
  mu : ℚ
  audit_signal_strength : ℚ
  perception_weight : ℚ
  audit_prob_response_delta : ℚ
  audit_target_prob : ℚ
  audit_prob_drift_rate : ℚ
deriving DecidableEq, Repr

/-- The `trust_update` config section. -/
structure TrustCfg where
  sigma_trust : ℚ
  p_unfair : ℚ
deriving DecidableEq, Repr

/-- The per-occupation part of the `pso_update` config section. -/
structure PsoOccCfg where
  phone_prob : ℚ
  phone_satisfied_prob : ℚ
  webcare_mean : ℚ
  webcare_std : ℚ
  huba_prob : ℚ
deriving DecidableEq, Repr

/-- The `pso_update` config section. -/
structure PsoCfg where
  sigma_pso : ℚ
  phone_delta_satisfied : ℚ
  phone_delta_dissatisfied : ℚ
  webcare_delta : ℚ
  huba_delta : ℚ
  pso_drift_rate : ℚ
  occ : Occupation → PsoOccCfg

/-- The `norm_update` config section. -/
structure NormCfg where
  social_norm_scale : Occupation → ℚ
  societal_norm_scale : Occupation → ℚ

/-- Embeds `HashimzadeStrategy.update_audit_belief_personal`
(`src/core/beliefs.py:34-45`): on audit, a 50/50 coin (`coin < 1/2`)
sets `subjective_audit_prob` to 100 (target effect) or 0 (bomb-crater
effect); always clipped to `[0,100]` afterwards. -/
def hashimzade_update_audit_belief (audited : Bool) (coin : ℚ)
    (t : AgentTraits) : AgentTraits :=
  let t :=
    if audited then
      if coin < 1/2 then { t with subjective_audit_prob := 100 }
      else { t with subjective_audit_prob := 0 }
    else t
  { t with subjective_audit_prob := clip t.subjective_audit_prob 0 100 }

/-- Embeds `CustomStrategy.update_subjective_audit_prob`
(`src/core/beliefs.py:53-74`).  `neighbors` carries the interaction
set's `subjective_audit_prob` values; `audited_neighbors` the sublist
belonging to this step's audited ids. -/
def custom_update_subjective_audit_prob (cfg : BeliefCfg)
    (neighbors audited_neighbors : List ℚ) (t : AgentTraits) : AgentTraits :=
  if neighbors = [] then t
  else
    let p := t.subjective_audit_prob
    let audit_effect :=
      if audited_neighbors = [] then 0
      else
        let fraction := (audited_neighbors.length : ℚ) / (neighbors.length : ℚ)
        cfg.audit_signal_strength * fraction * (100 - p)
    let median_n := pyMedian neighbors
    let perception_effect := cfg.perception_weight * (median_n - p)
    let social_update := (1 - cfg.mu) * (audit_effect + perception_effect)
    { t with subjective_audit_prob := clip (p + social_update) 0 100 }

/-- Embeds `CustomStrategy.update_audit_belief_personal`
(`src/core/beliefs.py:76-98`); `coin` is the target/bomb-crater draw. -/
def custom_update_audit_belief (cfg : BeliefCfg) (audited : Bool) (coin : ℚ)
    (initial_audit_prob : ℚ) (t : AgentTraits) : AgentTraits :=
  let old_prob := t.subjective_audit_prob
  let t :=
    if audited then
      if coin < cfg.audit_target_prob then
        { t with subjective_audit_prob := t.subjective_audit_prob + cfg.audit_prob_response_delta }
      else
        { t with subjective_audit_prob := t.subjective_audit_prob - cfg.audit_prob_response_delta }
    else
      if cfg.audit_prob_drift_rate > 0 then
        let gap := initial_audit_prob - old_prob
        { t with subjective_audit_prob := t.subjective_audit_prob + cfg.audit_prob_drift_rate * gap }
      else t
  { t with subjective_audit_prob := clip t.subjective_audit_prob 0 100 }

/-- Embeds `CustomStrategy.update_trust` (`src/core/beliefs.py:100-116`);
`audit = none` means no audit outcome this step, `some c` an audit
with compliance flag `c`; `coin` is the unfairness draw. -/
def custom_update_trust (cfg : TrustCfg) (audit : Option Bool) (coin : ℚ)
    (t : AgentTraits) : AgentTraits :=
  match audit with
  | none => t
  | some was_compliant =>
    let t :=
      if was_compliant then { t with p_trust := t.p_trust + 1/2 * cfg.sigma_trust }
      else if coin < cfg.p_unfair then { t with p_trust := t.p_trust - 1 * cfg.sigma_trust }
      else t
    { t with p_trust := clip t.p_trust 1 5 }

/-- Embeds `CustomStrategy.update_pso` (`src/core/beliefs.py:118-151`).
Draws: `phone_coin` and `phone_sat_coin` gate the phone-call lottery,
`satisfaction` is the `np.random.normal(webcare_mean, webcare_std)` draw,
`huba_coin` the rare-bonus lottery. -/
def custom_update_pso (cfg : PsoCfg) (occupation : Occupation)
    (phone_coin phone_sat_coin satisfaction huba_coin : ℚ)
    (initial_pso : ℚ) (t : AgentTraits) : AgentTraits :=
  let occ_cfg := cfg.occ occupation
  let t :=
    if phone_coin < occ_cfg.phone_prob then
      if phone_sat_coin < occ_cfg.phone_satisfied_prob then
        let multiplier : ℚ := if occupation = .business then 1 else 1/2
        { t with pso := t.pso + cfg.phone_delta_satisfied * multiplier * cfg.sigma_pso }
      else { t with pso := t.pso - cfg.phone_delta_dissatisfied * cfg.sigma_pso }
    else t
  let t :=
    if satisfaction > 3 then { t with pso := t.pso + cfg.webcare_delta * cfg.sigma_pso }
    else { t with pso := t.pso - cfg.webcare_delta * cfg.sigma_pso }
  let t :=
    if huba_coin < occ_cfg.huba_prob then { t with pso := t.pso + cfg.huba_delta } else t
  let t :=
    if cfg.pso_drift_rate > 0 then
      { t with pso := t.pso + cfg.pso_drift_rate * (initial_pso - t.pso) }
    else t
  { t with pso := clip t.pso 1 5 }

/-- Embeds `CustomStrategy.update_social_norms`
(`src/core/beliefs.py:153-162`); `neighbor_scores` are the compliance
scores of the interaction set (`compliance_scores.get(n.unique_id, 0)`). -/
def custom_update_social_norms (cfg : NormCfg) (occupation : Occupation)
    (neighbor_scores : List ℚ) (t : AgentTraits) : AgentTraits :=
  if neighbor_scores = [] then t
  else
    let raw := neighbor_scores.sum / (neighbor_scores.length : ℚ)
    let scale := cfg.social_norm_scale occupation
    { t with social_norms := clip (t.social_norms + raw * scale) 1 5 }

/-- Embeds `CustomStrategy.update_societal_norms`
(`src/core/beliefs.py:164-170`). -/
def custom_update_societal_norms (cfg : NormCfg) (occupation : Occupation)
    (societal_compliance : ℚ) (n_agents : ℕ) (t : AgentTraits) : AgentTraits :=
  let normalized := 2 * societal_compliance / (n_agents : ℚ) - 1
  let scale := cfg.societal_norm_scale occupation
  { t with societal_norms := clip (t.societal_norms + normalized * scale) 1 5 }

/-- The draws consumed by one `CustomStrategy.update` call. -/
structure CustomDraws where
  audit_coin : ℚ
  trust_coin : ℚ
  phone_coin : ℚ
  phone_sat_coin : ℚ
  satisfaction : ℚ
  huba_coin : ℚ
deriving DecidableEq, Repr

/-- Embeds `CustomStrategy.update` (`src/core/beliefs.py:172-186`): the
six per-trait updates applied sequentially.  `audit = none` when
`agent.interventions["audit"]` is unset. -/
def custom_update (bcfg : BeliefCfg) (tcfg : TrustCfg) (pcfg : PsoCfg)
    (ncfg : NormCfg) (occupation : Occupation) (audit : Option Bool)
    (neighbors audited_neighbors neighbor_scores : List ℚ)
    (societal_compliance : ℚ) (n_agents : ℕ)
    (initial_audit_prob initial_pso : ℚ) (draws : CustomDraws)
    (t : AgentTraits) : AgentTraits :=
  let t := custom_update_audit_belief bcfg audit.isSome draws.audit_coin initial_audit_prob t
  let t := custom_update_subjective_audit_prob bcfg neighbors audited_neighbors t
  let t := custom_update_trust tcfg audit draws.trust_coin t
  let t := custom_update_pso pcfg occupation draws.phone_coin draws.phone_sat_coin
    draws.satisfaction draws.huba_coin initial_pso t
  let t := custom_update_social_norms ncfg occupation neighbor_scores t
  custom_update_societal_norms ncfg occupation societal_compliance n_agents t

/-! ### Intervention trait deltas (`src/core/interventions/letter.py`) -/

/-- The `effects` mapping consumed by `apply_trait_deltas`
(`src/core/interventions/letter.py:9-57`); `none` models a key that is
absent from the dict, mirroring `"..." in effects` /
`effects.get(..., 0.0)`. -/
structure Effects where
  subjective_audit_prob_permanent : ℚ
  subjective_audit_prob_temporary : ℚ
  subjective_audit_prob_delta : Option ℚ
  pso_delta : Option ℚ
  trust_delta : Option ℚ
  social_norm_delta : Option ℚ
  societal_norm_delta : Option ℚ
  personal_norm_delta : Option ℚ
deriving DecidableEq, Repr

/-- The `subjective_audit_prob_delta` fallback of `apply_trait_deltas`
(`src/core/interventions/letter.py:16-17`): the legacy key is used only
when both the permanent and temporary deltas are zero. -/
def delta_fallback (perm temp : ℚ) (delta : Option ℚ) : ℚ :=
  match delta with
  | some d => if perm = 0 ∧ temp = 0 then d else perm
  | none => perm

/-- The audit-probability block of `apply_trait_deltas`
(`src/core/interventions/letter.py:19-30`): clip the permanent shift
into `[0,100]` and accumulate the temporary boost (unclipped). -/
def apply_sap_delta (perm temp : ℚ) (t : AgentTraits) (boost : ℚ) :
    AgentTraits × ℚ :=
  if perm ≠ 0 ∨ temp ≠ 0 then
    ({ t with subjective_audit_prob := clip (t.subjective_audit_prob + perm) 0 100 },
     boost + temp)
  else (t, boost)

/-- The `pso_delta` block of `apply_trait_deltas`
(`src/core/interventions/letter.py:32-35`). -/
def apply_pso_delta (o : Option ℚ) (t : AgentTraits) : AgentTraits :=
  match o with
  | some d => { t with pso := clip (t.pso + d) 1 5 }
  | none => t

/-- The `trust_delta` block of `apply_trait_deltas`
(`src/core/interventions/letter.py:37-40`). -/
def apply_trust_delta (o : Option ℚ) (t : AgentTraits) : AgentTraits :=
  match o with
  | some d => { t with p_trust := clip (t.p_trust + d) 1 5 }
  | none => t

/-- The `social_norm_delta` block of `apply_trait_deltas`
(`src/core/interventions/letter.py:42-45`). -/
def apply_social_delta (o : Option ℚ) (t : AgentTraits) : AgentTraits :=
  match o with
  | some d => { t with social_norms := clip (t.social_norms + d) 1 5 }
  | none => t

/-- The `societal_norm_delta` block of `apply_trait_deltas`
(`src/core/interventions/letter.py:47-50`). -/
def apply_societal_delta (o : Option ℚ) (t : AgentTraits) : AgentTraits :=
  match o with
  | some d => { t with societal_norms := clip (t.societal_norms + d) 1 5 }
  | none => t

/-- The `personal_norm_delta` block of `apply_trait_deltas`
(`src/core/interventions/letter.py:52-55`). -/
def apply_personal_delta (o : Option ℚ) (t : AgentTraits) : AgentTraits :=
  match o with
  | some d => { t with personal_norms := clip (t.personal_norms + d) 1 5 }
  | none => t

/-- Embeds `apply_trait_deltas` (`src/core/interventions/letter.py:9-57`)
as its sequence of per-key blocks, returning the updated traits
together with the updated (unclipped) `temporary_audit_boost`. -/
def apply_trait_deltas (effects : Effects) (t : AgentTraits)
    (temporary_audit_boost : ℚ) : AgentTraits × ℚ :=
  let permanent_delta := delta_fallback effects.subjective_audit_prob_permanent
    effects.subjective_audit_prob_temporary effects.subjective_audit_prob_delta
  let tb := apply_sap_delta permanent_delta effects.subjective_audit_prob_temporary
    t temporary_audit_boost
  let t := apply_pso_delta effects.pso_delta tb.1
  let t := apply_trust_delta effects.trust_delta t
  let t := apply_social_delta effects.social_norm_delta t
  let t := apply_societal_delta effects.societal_norm_delta t
  let t := apply_personal_delta effects.personal_norm_delta t
  (t, tb.2)

/-- The trait domains of the spec's data model: all `[1,5]`-domain
traits in range and `subjective_audit_prob ∈ [0,100]`. -/
def traitsInDomain (t : AgentTraits) : Prop :=
  1 ≤ t.personal_norms ∧ t.personal_norms ≤ 5 ∧
  1 ≤ t.social_norms ∧ t.social_norms ≤ 5 ∧
  1 ≤ t.societal_norms ∧ t.societal_norms ≤ 5 ∧
  1 ≤ t.pso ∧ t.pso ≤ 5 ∧
  1 ≤ t.p_trust ∧ t.p_trust ≤ 5 ∧
  1 ≤ t.risk_aversion ∧ t.risk_aversion ≤ 5 ∧
  0 ≤ t.subjective_audit_prob ∧ t.subjective_audit_prob ≤ 100

instance (t : AgentTraits) : Decidable (traitsInDomain t) := by
  unfold traitsInDomain; infer_instance

/-! ### RNG threading

Every stochastic primitive takes the pseudo-random source as an explicit
stream plus cursor, so each embedded operation is a pure function. -/

/-- An integer pseudo-random stream (models the numba/numpy integer
generator consumed by `np.random.randint`). -/
structure RngN where
  stream : ℕ → ℕ
  idx : ℕ

/-- One draw from an integer stream. -/
def RngN.next (g : RngN) : ℕ × RngN :=
  (g.stream g.idx, { g with idx := g.idx + 1 })

/-- Embeds `np.random.randint(lo, hi)` (`lo` inclusive, `hi` exclusive),
reduced modulo the range width. -/
def RngN.randint (g : RngN) (lo hi : ℕ) : ℕ × RngN :=
  let (v, g') := g.next
  (lo + v % (hi - lo), g')

/-- A rational pseudo-random stream for `np.random.random()`-style
draws in `[0,1)`. -/
structure RngQ where
  stream : ℕ → ℚ
  idx : ℕ

/-- One draw from a rational stream. -/
def RngQ.next (g : RngQ) : ℚ × RngQ :=
  (g.stream g.idx, { g with idx := g.idx + 1 })

/-- Python `int()` on a float: truncation toward zero. -/
def pyInt (q : ℚ) : ℤ := if 0 ≤ q then ⌊q⌋ else ⌈q⌉

/-! ### Network construction (`src/core/network.py`) -/

/-- The in-place swap `cand_arr[k], cand_arr[idx] = cand_arr[idx], cand_arr[k]`
of `compute_edges_numba` (`src/core/network.py:117`), on lists. -/
def listSwap (l : List ℕ) (i j : ℕ) : List ℕ :=
  (l.set i (l.getD j 0)).set j (l.getD i 0)

/-- The partial Fisher-Yates selection loop of `compute_edges_numba`
(`src/core/network.py:115-118`): for `k` up to `count`, draw
`idx = randint(k, |arr|)`, swap positions `k` and `idx`, and emit the
element now at position `k`.  Returns the emitted targets in order. -/
def swapSample (arr : List ℕ) (k count : ℕ) (g : RngN) : List ℕ × RngN :=
  match count with
  | 0 => ([], g)
  | c + 1 =>
    let (r, g') := g.randint k arr.length
    let arr' := listSwap arr k r
    let (rest, g'') := swapSample arr' (k + 1) c g'
    (arr'.getD k 0 :: rest, g'')

/-- The mutable state of `compute_edges_numba`: the emitted edge list,
the boolean adjacency matrix (as the set of `true` entries) and the
running degrees. -/
structure EdgeState where
  edges : List (ℕ × ℕ)
  adj : Finset (ℕ × ℕ)
  deg : ℕ → ℕ

/-- The effect of one `edges.append((i, target))` iteration of
`compute_edges_numba` (`src/core/network.py:119-123`): record the edge,
set both adjacency entries, bump both degrees. -/
def addEdge (i t : ℕ) (s : EdgeState) : EdgeState :=
  let d1 := Function.update s.deg i (s.deg i + 1)
  { edges := s.edges ++ [(i, t)]
    adj := insert (i, t) (insert (t, i) s.adj)
    deg := Function.update d1 t (d1 t + 1) }

/-- Adding every sampled target of one candidate category. -/
def addEdgesFor (i : ℕ) (targets : List ℕ) (s : EdgeState) : EdgeState :=
  targets.foldl (fun s t => addEdge i t s) s

/-- The candidate partition of `compute_edges_numba`
(`src/core/network.py:99-105`): all `j ≠ i` with `adj[i,j]` unset,
split into same-group and other-group, in index order. -/
def roundCandidates (n i : ℕ) (groupIds : ℕ → ℕ) (adj : Finset (ℕ × ℕ)) :
    List ℕ × List ℕ :=
  let js := (List.range n).filter (fun j => decide (j ≠ i ∧ (i, j) ∉ adj))
  (js.filter (fun j => decide (groupIds j = groupIds i)),
   js.filter (fun j => decide (groupIds j ≠ groupIds i)))

/-- One `(candidates, count)` pass of `compute_edges_numba`
(`src/core/network.py:107-123`): skip when `count ≤ 0` or no candidates,
cap `count` at the candidate count, sample that many distinct targets,
add the edges. -/
def processCategory (i : ℕ) (cands : List ℕ) (count : ℤ)
    (s : EdgeState) (g : RngN) : EdgeState × RngN :=
  if count ≤ 0 ∨ cands = [] then (s, g)
  else
    let cnt := min count.toNat cands.length
    let (targets, g') := swapSample cands 0 cnt g
    (addEdgesFor i targets s, g')

/-- The body of the outer `for i in range(n_agents)` loop of
`compute_edges_numba` (`src/core/network.py:90-123`). -/
def processAgent (n : ℕ) (groupIds targetDegrees : ℕ → ℕ) (homophily : ℚ)
    (sg : EdgeState × RngN) (i : ℕ) : EdgeState × RngN :=
  let (s, g) := sg
  let needed : ℤ := (targetDegrees i : ℤ) - (s.deg i : ℤ)
  if needed ≤ 0 then (s, g)
  else
    let n_same : ℤ := pyInt ((needed : ℚ) * homophily)
    let (same_cands, other_cands) := roundCandidates n i groupIds s.adj
    let (s, g) := processCategory i same_cands n_same s g
    processCategory i other_cands (needed - n_same) s g

/-- Embeds `NetworkBuilder.compute_edges_numba`
(`src/core/network.py:83-124`); the per-agent target degrees (sampled
by `sample_degree` in `build_lognormal`) enter as an explicit input. -/
def compute_edges_numba (n : ℕ) (groupIds targetDegrees : ℕ → ℕ)
    (homophily : ℚ) (g : RngN) : List (ℕ × ℕ) :=
  (((List.range n).foldl (processAgent n groupIds targetDegrees homophily)
    ({ edges := [], adj := ∅, deg := fun _ => 0 }, g)).1).edges

/-- An edge as an unordered pair: `(min, max)` normalization. -/
def undirEdge (e : ℕ × ℕ) : ℕ × ℕ := (min e.1 e.2, max e.1 e.2)

/-- The spec's graph invariant: no self-loop and no duplicate
undirected edge. -/
def edgesInvariant (edges : List (ℕ × ℕ)) : Prop :=
  (∀ e ∈ edges, e.1 ≠ e.2) ∧ (edges.map undirEdge).Nodup

/-- The failure modes of `NetworkBuilder.build`
(`src/core/network.py:17-22,126-130`): `NotImplementedError` from
`build_erdos`/`build_powerlaw`, `ValueError("Unknown topology: ...")`
for a name missing from the builder table. -/
inductive BuildError
  | notImplemented
  | unknownTopology (name : String)
deriving DecidableEq, Repr

/-- The `networkx` neighbor lists that `build_lognormal` writes back onto
the agents (`src/core/network.py:76-79`): all opposite endpoints of
edges incident to `i`. -/
def neighborsFromEdges (edges : List (ℕ × ℕ)) (i : ℕ) : List ℕ :=
  (edges.filter (fun e => decide (e.1 = i))).map (·.2)
    ++ (edges.filter (fun e => decide (e.2 = i))).map (·.1)

/-- Embeds `NetworkBuilder.build` (`src/core/network.py:17-22`) together
with the neighbor write-back of `build_lognormal`: dispatch on the
topology string; `"erdos"`/`"powerlaw"` raise `NotImplementedError`
before touching any agent, an unknown name raises `ValueError`.
Returns the built edge list (on success) and the agents' neighbor-list
map, unchanged from `neighbors0` on every failure path. -/
def NetworkBuilder_build (topology : String) (n : ℕ)
    (groupIds targetDegrees : ℕ → ℕ) (homophily : ℚ)
    (neighbors0 : ℕ → List ℕ) (g : RngN) :
    Except BuildError (List (ℕ × ℕ)) × (ℕ → List ℕ) :=
  if topology = "lognormal" then
    let edges := compute_edges_numba n groupIds targetDegrees homophily g
    (.ok edges, fun i => neighborsFromEdges edges i)
  else if topology = "erdos" then (.error .notImplemented, neighbors0)
  else if topology = "powerlaw" then (.error .notImplemented, neighbors0)
  else (.error (.unknownTopology topology), neighbors0)

/-! ### Audit selection strategies (`src/core/strategies/audit.py`) -/

/-- Embeds `RandomAudit.select` (`src/core/strategies/audit.py:11-17`)
over a list of agent identifiers.  `n_audits = max(1, int(len * rate))`;
if that reaches the population the whole list is returned, otherwise
`np.random.choice(len, size=n_audits, replace=False)` — modeled as a
partial Fisher-Yates draw of distinct indices — selects the agents. -/
def random_audit_select (agents : List ℕ) (rate : ℚ) (g : RngN) : List ℕ :=
  let n_audits := (max 1 (pyInt ((agents.length : ℚ) * rate))).toNat
  if agents.length ≤ n_audits then agents
  else
    let (indices, _) := swapSample (List.range agents.length) 0 n_audits g
    indices.map (fun i => agents.getD i 0)

/-- Modelled from the spec: the claimed audit count
`n = max(1, round(rate × |agents|))`, to be compared with the code's
truncating `max(1, int(len(agents) * rate))`. -/
def random_audit_n_spec (len : ℕ) (rate : ℚ) : ℤ :=
  max 1 (round ((len : ℚ) * rate))

/-- The agent fields consumed by `NetworkAudit.select`
(`src/core/strategies/audit.py:43-47`).  `closeness_centrality` is an
`Option` because the Python attribute is never assigned anywhere in the
repository: `none` models the absent attribute, whose read raises
`AttributeError`. -/
structure SelAgent where
  unique_id : ℕ
  closeness_centrality : Option ℚ
deriving DecidableEq, Repr

/-- Embeds `BaseAgent.__init__` (`src/core/agents/base_agent.py:34-46`) as seen
by the audit strategies: it sets ids, traits, incomes and neighbor
lists, and never `closeness_centrality`. -/
def base_agent_construct (uid : ℕ) : SelAgent :=
  { unique_id := uid, closeness_centrality := none }

/-- Embeds `NetworkAudit.select` (`src/core/strategies/audit.py:43-47`):
`sorted(agents, key=lambda a: a.closeness_centrality, reverse=True)[:n]`.
Reading the key raises `AttributeError` when any agent lacks the
attribute (the sort calls the key on every element of a non-empty
list); on an empty list `sorted` never calls the key. -/
def network_audit_select (agents : List SelAgent) (rate : ℚ) :
    Except String (List SelAgent) :=
  let n_audits := (max 1 (pyInt ((agents.length : ℚ) * rate))).toNat
  if agents.all (fun a => a.closeness_centrality.isSome) then
    .ok ((agents.insertionSort
      (fun a b => (b.closeness_centrality.getD 0) ≤ (a.closeness_centrality.getD 0))).take n_audits)
  else .error "AttributeError: closeness_centrality"

/-! ### The shared-stream decide phase (`TaxComplianceModel.step`) -/

/-- Embeds `apply_error` with the three possible `np.random` draws threaded
from a single shared stream (1 draw when no error fires, 3 when one
does), exactly as the Python global generator serves them. -/
def apply_error_rng (cfg : ErrorCfg) (occupation : Occupation)
    (attrs : BusinessAttrs) (agent : Agent) (g : RngQ) :
    (ℚ × Bool × ℚ) × RngQ :=
  if ¬ cfg.enabled then ((agent.true_income, false, 0), g)
  else
    let (r_fire, g) := g.next
    if r_fire ≥ calculate_error_probability cfg occupation attrs agent.traits then
      ((agent.true_income, false, 0), g)
    else
      let (u, g) := g.next
      let (d, g) := g.next
      let error_amount := calculate_error_amount cfg agent.true_income u d
      ((max 0 (agent.true_income - error_amount), true, error_amount), g)

/-- The decide phase of `TaxComplianceModel.step`
(`src/core/model.py:96`, `agents.shuffle_do("step")`) for honest
private agents: each agent in the shuffled order runs
`HonestBehavior.decide`, drawing from the one shared `np.random`
stream.  Returns `(unique_id, declared_income)` pairs. -/
def decide_phase_honest (cfg : ErrorCfg) (order : List (ℕ × Agent))
    (g : RngQ) : List (ℕ × ℚ) :=
  match order with
  | [] => []
  | (uid, a) :: rest =>
    let (res, g') := apply_error_rng cfg .priv
      ⟨.medium, false, false, .small, false⟩ a g
    (uid, res.1) :: decide_phase_honest cfg rest g'

/-- The `Total_Taxes`-style pure read over the decide phase's output:
the sum of declared incomes (`calc_total_taxes` divides out the shared
`tax_rate` factor). -/
def total_declared (l : List (ℕ × ℚ)) : ℚ := (l.map (·.2)).sum

/-- Modelled from the spec (claim C6's reading): a
`social_influence_filter` whose neighbor median is taken over a
down-sampled interaction subset of the neighbors (the Bernoulli mask of
`update_norms`), instead of over all eligible neighbors. -/
def social_influence_filter_downsampled (cfg : FilterConfig) (agent : Agent)
    (mask : List Bool) (willingness max_concealable : ℚ) : ℚ :=
  if max_concealable ≤ 0 then 0
  else
    let own_rate := willingness / max_concealable
    let sampled := ((agent.neighbors.zip mask).filter (fun p => p.2)).map (·.1)
    if sampled = [] then willingness
    else
      let neighbor_rates :=
        (sampled.filter (fun n => 0 < n.true_income)).map (fun n => n.prev_evasion_rate)
      if neighbor_rates = [] then willingness
      else
        let omega := cfg.social_influence
        let median_rate := pyMedian neighbor_rates
        let adjusted_rate := (1 - omega) * own_rate + omega * median_rate
        clip adjusted_rate 0 1 * max_concealable

/-! ## Theorems -/

theorem clip_lb (v lo hi : ℚ) (h : lo ≤ hi) : lo ≤ clip v lo hi :=
  le_max_left _ _

theorem clip_ub (v lo hi : ℚ) (h : lo ≤ hi) : clip v lo hi ≤ hi :=
  max_le h (min_le_left _ _)

/-- Claim C1: For every agent with positive willingness,
`rational_choice_filter` computes `p = (subjective_audit_prob +
temporary_audit_boost)/100` and `threshold = 1/(1+penalty_rate)`;
it evades nothing when `p ≥ threshold`, evades the whole willingness
when `p ≤ 0`, and otherwise decides full-deter vs full-evade by the
risk-aversion-scaled deterrence gate on `margin = (threshold-p)/threshold`.
In particular `subjective_audit_prob = 0`, no boost and
`penalty_rate = 3` give evasion rate 1 (the whole willingness). -/
theorem rational_choice_filter_cases
    (cfg : FilterConfig) (agent : Agent) (w : ℚ)
    (hf : 0 ≤ cfg.penalty_rate) (hw : 0 < w) :
    (((agent.traits.subjective_audit_prob + agent.temporary_audit_boost) / 100 ≥
        1 / (1 + cfg.penalty_rate)) →
      rational_choice_filter cfg agent w = 0)
    ∧ ((agent.traits.subjective_audit_prob + agent.temporary_audit_boost) / 100 ≤ 0 →
      rational_choice_filter cfg agent w = w)
    ∧ (0 < (agent.traits.subjective_audit_prob + agent.temporary_audit_boost) / 100 →
       (agent.traits.subjective_audit_prob + agent.temporary_audit_boost) / 100 <
          1 / (1 + cfg.penalty_rate) →
      rational_choice_filter cfg agent w =
        if (1 / (1 + cfg.penalty_rate) -
              (agent.traits.subjective_audit_prob + agent.temporary_audit_boost) / 100) /
              (1 / (1 + cfg.penalty_rate)) < 1/5
            ∧ (1/5 - (1 / (1 + cfg.penalty_rate) -
                (agent.traits.subjective_audit_prob + agent.temporary_audit_boost) / 100) /
                (1 / (1 + cfg.penalty_rate)))
              * ((agent.traits.risk_aversion - 1/2) / (9/2)) > 3/10
        then 0 else w)
    ∧ (agent.traits.subjective_audit_prob = 0 → agent.temporary_audit_boost = 0 →
        cfg.penalty_rate = 3 → rational_choice_filter cfg agent w = w) := by
  have hw' : ¬ w ≤ 0 := not_le.2 hw
  have h1f : (0:ℚ) < 1 + cfg.penalty_rate := by linarith
  have hth : 0 < 1 / (1 + cfg.penalty_rate) := by positivity
  refine ⟨?_, ?_, ?_, ?_⟩
  · intro hp
    simp only [rational_choice_filter, if_neg hw']
    rw [if_pos hp, zero_mul]
  · intro hp0
    have hnp : ¬ ((agent.traits.subjective_audit_prob + agent.temporary_audit_boost) / 100 ≥
        1 / (1 + cfg.penalty_rate)) := by
      intro h; linarith
    simp only [rational_choice_filter, if_neg hw']
    rw [if_neg hnp, if_pos hp0, one_mul]
  · intro h0p hpθ
    have hnp : ¬ ((agent.traits.subjective_audit_prob + agent.temporary_audit_boost) / 100 ≥
        1 / (1 + cfg.penalty_rate)) := by
      intro h; linarith
    have hnp0 : ¬ ((agent.traits.subjective_audit_prob + agent.temporary_audit_boost) / 100 ≤ 0) := by
      intro h; linarith
    simp only [rational_choice_filter, if_neg hw']
    rw [if_neg hnp, if_neg hnp0]
    split_ifs with h1 h2 h3 h4 h5 <;> simp only [zero_mul, one_mul] <;>
      first | rfl | tauto
  · intro hs hb hf3
    have hp0 : ((agent.traits.subjective_audit_prob + agent.temporary_audit_boost) / 100 ≤ 0) := by
      rw [hs, hb]; norm_num
    have hnp : ¬ ((agent.traits.subjective_audit_prob + agent.temporary_audit_boost) / 100 ≥
        1 / (1 + cfg.penalty_rate)) := by
      rw [hs, hb, hf3]; norm_num
    simp only [rational_choice_filter, if_neg hw']
    rw [if_neg hnp, if_pos hp0, one_mul]

/-- Witness for C1: the explicit scenario — a dishonest agent with
`subjective_audit_prob = 0`, no temporary boost and `penalty_rate = 3`
evades the whole willingness. -/
theorem rational_choice_filter_cases_witness :
    rational_choice_filter
      ⟨fun _ => ⟨1, 1, 1, 1, 1⟩, fun _ => 1, 1/2, 3, 3/10⟩
      ⟨1000, 1000, ⟨3, 0, 3, 3, 3, 3, 3⟩, 0, 0, 1/10, []⟩ 5 = 5 :=
  (rational_choice_filter_cases
      ⟨fun _ => ⟨1, 1, 1, 1, 1⟩, fun _ => 1, 1/2, 3, 3/10⟩
      ⟨1000, 1000, ⟨3, 0, 3, 3, 3, 3, 3⟩, 0, 0, 1/10, []⟩ 5
      (by norm_num) (by norm_num)).2.2.2 rfl rfl rfl

/-- Claim C3: The audit penalty is `evaded_income × tax_rate × penalty_rate`
exactly when the agent is non-compliant (declared below true income
minus the 0.01 tolerance), and 0 when compliant. -/
theorem audit_apply_penalty_spec (cfg : FilterConfig) (a : Agent) :
    (a.declared_income < a.true_income - 1/100 →
      (audit_apply cfg a).penalty = evaded_income a * cfg.tax_rate * cfg.penalty_rate)
    ∧ (a.true_income - 1/100 ≤ a.declared_income →
      (audit_apply cfg a).penalty = 0) := by
  constructor
  · intro h
    have hc : is_compliant a = false := by
      simp only [is_compliant, decide_eq_false_iff_not, not_le]; exact h
    simp [audit_apply, hc]
  · intro h
    have hc : is_compliant a = true := by
      simp only [is_compliant, decide_eq_true_eq]; exact h
    simp [audit_apply, hc]

/-- Witness for C3: auditing a non-compliant agent with
`evaded_income = 1000`, `tax_rate = 0.3`, `penalty_rate = 3` yields a
penalty of 900. -/
theorem audit_apply_penalty_spec_witness :
    (audit_apply ⟨fun _ => ⟨1, 1, 1, 1, 1⟩, fun _ => 1, 1/2, 3, 3/10⟩
      ⟨5000, 4000, ⟨3, 50, 3, 3, 3, 3, 3⟩, 0, 0, 1/10, []⟩).penalty = 900 := by
  have h := (audit_apply_penalty_spec
    ⟨fun _ => ⟨1, 1, 1, 1, 1⟩, fun _ => 1, 1/2, 3, 3/10⟩
    ⟨5000, 4000, ⟨3, 50, 3, 3, 3, 3, 3⟩, 0, 0, 1/10, []⟩).1 (by norm_num)
  rw [h]
  norm_num [evaded_income]

/-- Claim C10: `NetworkBuilder.build` supports only the `"lognormal"`
topology: `"erdos"` and `"powerlaw"` fail with the NotImplemented
error, any other unknown topology fails with a descriptive
unknown-topology error, and every failure path leaves the agents'
neighbor lists untouched and returns no graph. -/
theorem network_build_unsupported
    (n : ℕ) (groupIds targetDegrees : ℕ → ℕ) (homophily : ℚ)
    (neighbors0 : ℕ → List ℕ) (g : RngN) :
    NetworkBuilder_build "erdos" n groupIds targetDegrees homophily neighbors0 g
      = (.error .notImplemented, neighbors0)
    ∧ NetworkBuilder_build "powerlaw" n groupIds targetDegrees homophily neighbors0 g
      = (.error .notImplemented, neighbors0)
    ∧ ∀ t : String, t ≠ "lognormal" → t ≠ "erdos" → t ≠ "powerlaw" →
      NetworkBuilder_build t n groupIds targetDegrees homophily neighbors0 g
        = (.error (.unknownTopology t), neighbors0) := by
  refine ⟨rfl, rfl, ?_⟩
  intro t h1 h2 h3
  simp only [NetworkBuilder_build, if_neg h1, if_neg h2, if_neg h3]

/-- Witness for C10: a concrete unknown topology name fails with the
unknown-topology error and unchanged neighbor lists. -/
theorem network_build_unsupported_witness :
    NetworkBuilder_build "watts" 2 (fun _ => 0) (fun _ => 1) (1/2)
      (fun _ => []) ⟨fun _ => 0, 0⟩
      = (.error (.unknownTopology "watts"), fun _ => []) :=
  (network_build_unsupported 2 (fun _ => 0) (fun _ => 1) (1/2)
    (fun _ => []) ⟨fun _ => 0, 0⟩).2.2 "watts"
    (by decide) (by decide) (by decide)

/-- Claim C8, code evaluation at the failing input: `NetworkAudit.select`
raises `AttributeError` on any agents produced by `BaseAgent.__init__`
and the network builder, because no component of the repository ever
assigns `closeness_centrality`. -/
theorem network_audit_select_attribute_error :
    network_audit_select [base_agent_construct 0, base_agent_construct 1] (1/2)
      = .error "AttributeError: closeness_centrality" := rfl

theorem listSwap_length (l : List ℕ) (i j : ℕ) :
    (listSwap l i j).length = l.length := by
  simp [listSwap]

theorem getD_cons_set_perm :
    ∀ (t : List ℕ) (m : ℕ), m < t.length → ∀ a : ℕ,
      List.Perm (t.getD m 0 :: t.set m a) (a :: t) := by
  intro t
  induction t with
  | nil => intro m hm; simp at hm
  | cons b s ih =>
    intro m hm a
    cases m with
    | zero =>
      simp only [List.getD_cons_zero, List.set_cons_zero]
      exact List.Perm.swap a b s
    | succ p =>
      simp only [List.getD_cons_succ, List.set_cons_succ]
      have hp : p < s.length := by simpa using Nat.lt_of_succ_lt_succ hm
      exact ((List.Perm.swap b (s.getD p 0) (s.set p a)).trans
        ((ih p hp a).cons b)).trans (List.Perm.swap a b s)

theorem listSwap_perm :
    ∀ (l : List ℕ) (i j : ℕ), i < l.length → j < l.length →
      List.Perm (listSwap l i j) l := by
  intro l
  induction l with
  | nil => intro i j hi; simp at hi
  | cons a t ih =>
    intro i j hi hj
    match i, j with
    | 0, 0 =>
      simp only [listSwap, List.getD_cons_zero, List.set_cons_zero]
      exact List.Perm.refl _
    | 0, m + 1 =>
      have hm : m < t.length := by simpa using Nat.lt_of_succ_lt_succ hj
      simp only [listSwap, List.getD_cons_zero, List.getD_cons_succ,
        List.set_cons_zero, List.set_cons_succ]
      exact getD_cons_set_perm t m hm a
    | m + 1, 0 =>
      have hm : m < t.length := by simpa using Nat.lt_of_succ_lt_succ hi
      simp only [listSwap, List.getD_cons_zero, List.getD_cons_succ,
        List.set_cons_zero, List.set_cons_succ]
      exact getD_cons_set_perm t m hm a
    | p + 1, m + 1 =>
      have hp : p < t.length := by simpa using Nat.lt_of_succ_lt_succ hi
      have hm : m < t.length := by simpa using Nat.lt_of_succ_lt_succ hj
      simp only [listSwap, List.getD_cons_succ, List.set_cons_succ]
      exact List.Perm.cons a (ih p m hp hm)

theorem getD_drop (l : List ℕ) (k m : ℕ) (h : k + m < l.length) :
    (l.drop k).getD m 0 = l.getD (k + m) 0 := by
  have h1 : m < (l.drop k).length := by
    rw [List.length_drop]; omega
  have h2 : (l.drop k).drop m = (l.drop k)[m] :: (l.drop k).drop (m + 1) :=
    List.drop_eq_getElem_cons h1
  rw [List.drop_drop, List.drop_drop, ← Nat.add_assoc] at h2
  have h3 : l.drop (k + m) = l[k + m] :: l.drop (k + m + 1) :=
    List.drop_eq_getElem_cons h
  have hc : l[k + m] :: l.drop (k + m + 1) = (l.drop k)[m] :: l.drop (k + m + 1) := by
    rw [← h3, h2]
  have hhead : (l.drop k)[m] = l[k + m] := by
    injection hc.symm
  rw [List.getD_eq_getElem _ _ h1, List.getD_eq_getElem _ _ h, hhead]

theorem listSwap_drop_perm (l : List ℕ) (k i j : ℕ)
    (hki : k ≤ i) (hkj : k ≤ j) (hi : i < l.length) (hj : j < l.length) :
    List.Perm ((listSwap l i j).drop k) (l.drop k) := by
  have hij : (listSwap l i j).drop k
      = listSwap (l.drop k) (i - k) (j - k) := by
    simp only [listSwap]
    rw [List.drop_set, if_neg (by omega), List.drop_set, if_neg (by omega)]
    rw [getD_drop l k (j - k) (by omega), getD_drop l k (i - k) (by omega)]
    rw [show k + (j - k) = j by omega, show k + (i - k) = i by omega]
  rw [hij]
  exact listSwap_perm (l.drop k) (i - k) (j - k)
    (by rw [List.length_drop]; omega) (by rw [List.length_drop]; omega)

theorem randint_bound (g : RngN) (lo hi : ℕ) (h : lo < hi) :
    lo ≤ (g.randint lo hi).1 ∧ (g.randint lo hi).1 < hi := by
  simp only [RngN.randint, RngN.next]
  constructor
  · exact Nat.le_add_right _ _
  · have : g.stream g.idx % (hi - lo) < hi - lo :=
      Nat.mod_lt _ (by omega)
    omega

theorem swapSample_succ (arr : List ℕ) (k c : ℕ) (g : RngN) :
    swapSample arr k (c + 1) g =
      ((listSwap arr k (g.randint k arr.length).1).getD k 0
          :: (swapSample (listSwap arr k (g.randint k arr.length).1) (k + 1) c
              (g.randint k arr.length).2).1,
        (swapSample (listSwap arr k (g.randint k arr.length).1) (k + 1) c
            (g.randint k arr.length).2).2) := rfl

theorem swapSample_length :
    ∀ (count : ℕ) (arr : List ℕ) (k : ℕ) (g : RngN),
      (swapSample arr k count g).1.length = count := by
  intro count
  induction count with
  | zero => intro arr k g; rfl
  | succ c ih =>
    intro arr k g
    rw [swapSample_succ]
    simp [ih]

theorem swapSample_mem :
    ∀ (count : ℕ) (arr : List ℕ) (k : ℕ) (g : RngN),
      k + count ≤ arr.length →
      ∀ x ∈ (swapSample arr k count g).1, x ∈ arr.drop k := by
  intro count
  induction count with
  | zero => intro arr k g _ x hx; simp [swapSample] at hx
  | succ c ih =>
    intro arr k g h x hx
    rw [swapSample_succ] at hx
    have hk : k < arr.length := by omega
    obtain ⟨hrlo, hrhi⟩ := randint_bound g k arr.length hk
    have hlen : (listSwap arr k (g.randint k arr.length).1).length = arr.length :=
      listSwap_length _ _ _
    have hdropperm :
        List.Perm ((listSwap arr k (g.randint k arr.length).1).drop k) (arr.drop k) :=
      listSwap_drop_perm arr k k (g.randint k arr.length).1 le_rfl hrlo hk hrhi
    rcases List.mem_cons.1 hx with rfl | hx
    · have hk' : k < (listSwap arr k (g.randint k arr.length).1).length := by omega
      have : (listSwap arr k (g.randint k arr.length).1).drop k
          = (listSwap arr k (g.randint k arr.length).1)[k]
            :: (listSwap arr k (g.randint k arr.length).1).drop (k + 1) :=
        List.drop_eq_getElem_cons hk'
      have hmem : (listSwap arr k (g.randint k arr.length).1).getD k 0
          ∈ (listSwap arr k (g.randint k arr.length).1).drop k := by
        rw [this, List.getD_eq_getElem _ _ hk']
        exact List.mem_cons_self _ _
      exact hdropperm.mem_iff.1 hmem
    · have hmem := ih (listSwap arr k (g.randint k arr.length).1) (k + 1)
        (g.randint k arr.length).2 (by omega) x hx
      have hsub : List.Sublist
          ((listSwap arr k (g.randint k arr.length).1).drop (k + 1))
          ((listSwap arr k (g.randint k arr.length).1).drop k) :=
        List.drop_sublist_drop_left _ (Nat.le_succ k)
      exact hdropperm.mem_iff.1 (hsub.mem hmem)

theorem swapSample_nodup :
    ∀ (count : ℕ) (arr : List ℕ) (k : ℕ) (g : RngN),
      arr.Nodup → k + count ≤ arr.length →
      (swapSample arr k count g).1.Nodup := by
  intro count
  induction count with
  | zero => intro arr k g _ _; simp [swapSample]
  | succ c ih =>
    intro arr k g hnd h
    rw [swapSample_succ]
    have hk : k < arr.length := by omega
    obtain ⟨hrlo, hrhi⟩ := randint_bound g k arr.length hk
    have hperm : List.Perm (listSwap arr k (g.randint k arr.length).1) arr :=
      listSwap_perm arr k (g.randint k arr.length).1 hk hrhi
    have hnd' : (listSwap arr k (g.randint k arr.length).1).Nodup :=
      hperm.symm.nodup hnd
    have hlen : (listSwap arr k (g.randint k arr.length).1).length = arr.length :=
      listSwap_length _ _ _
    have hrest : (swapSample (listSwap arr k (g.randint k arr.length).1) (k + 1) c
        (g.randint k arr.length).2).1.Nodup :=
      ih _ _ _ hnd' (by omega)
    refine List.nodup_cons.2 ⟨?_, hrest⟩
    intro hmem
    have hk' : k < (listSwap arr k (g.randint k arr.length).1).length := by omega
    have hdropnd : ((listSwap arr k (g.randint k arr.length).1).drop k).Nodup :=
      (List.drop_sublist k _).nodup hnd'
    have hdropeq : (listSwap arr k (g.randint k arr.length).1).drop k
        = (listSwap arr k (g.randint k arr.length).1)[k]
          :: (listSwap arr k (g.randint k arr.length).1).drop (k + 1) :=
      List.drop_eq_getElem_cons hk'
    have hnotin : (listSwap arr k (g.randint k arr.length).1)[k]
        ∉ (listSwap arr k (g.randint k arr.length).1).drop (k + 1) := by
      rw [hdropeq] at hdropnd
      exact (List.nodup_cons.1 hdropnd).1
    have hmem' : (listSwap arr k (g.randint k arr.length).1).getD k 0
        ∈ (listSwap arr k (g.randint k arr.length).1).drop (k + 1) :=
      swapSample_mem c _ (k + 1) (g.randint k arr.length).2 (by omega) _ hmem
    rw [List.getD_eq_getElem _ _ hk'] at hmem'
    exact hnotin hmem'

/-- Claim C7, amended: For every non-empty, duplicate-free agent list and
rate, `RandomAudit.select` computes `n = max(1, ⌊rate × |agents|⌋)`
(Python `int()` truncation, not rounding): when `n ≥ |agents|` it
returns the whole list, otherwise it returns exactly `n` distinct
agents sampled without replacement. -/
theorem random_audit_select_spec (agents : List ℕ) (rate : ℚ) (g : RngN)
    (hne : agents ≠ []) (hnd : agents.Nodup) :
    (agents.length ≤ (max 1 (pyInt ((agents.length : ℚ) * rate))).toNat →
      random_audit_select agents rate g = agents)
    ∧ ((max 1 (pyInt ((agents.length : ℚ) * rate))).toNat < agents.length →
      (random_audit_select agents rate g).length
          = (max 1 (pyInt ((agents.length : ℚ) * rate))).toNat
        ∧ (random_audit_select agents rate g).Nodup) := by
  constructor
  · intro h
    simp only [random_audit_select]
    rw [if_pos h]
  · intro h
    simp only [random_audit_select]
    rw [if_neg (not_le.2 h)]
    constructor
    · rw [List.length_map, swapSample_length]
    · have hbound : 0 + (max 1 (pyInt ((agents.length : ℚ) * rate))).toNat
          ≤ (List.range agents.length).length := by
        rw [List.length_range]; omega
      have hnd0 : (swapSample (List.range agents.length) 0
          (max 1 (pyInt ((agents.length : ℚ) * rate))).toNat g).1.Nodup :=
        swapSample_nodup _ _ 0 g (List.nodup_range _) hbound
      have hmem : ∀ x ∈ (swapSample (List.range agents.length) 0
          (max 1 (pyInt ((agents.length : ℚ) * rate))).toNat g).1,
          x < agents.length := by
        intro x hx
        have hx' := swapSample_mem _ _ 0 g hbound x hx
        rw [List.drop_zero] at hx'
        exact List.mem_range.1 hx'
      refine List.Nodup.map_on ?_ hnd0
      intro x hx y hy hxy
      have hxl := hmem x hx
      have hyl := hmem y hy
      rw [List.getD_eq_getElem _ _ hxl, List.getD_eq_getElem _ _ hyl] at hxy
      exact hnd.getElem_inj_iff.1 hxy

/-- Witness for C7: on 100 agents with rate 0.1 the selection returns
exactly 10 distinct agents. -/
theorem random_audit_select_spec_witness :
    (random_audit_select (List.range 100) (1/10) ⟨fun _ => 0, 0⟩).length = 10
    ∧ (random_audit_select (List.range 100) (1/10) ⟨fun _ => 0, 0⟩).Nodup := by
  have hn : (max 1 (pyInt (((List.range 100).length : ℚ) * (1/10)))).toNat = 10 := by
    norm_num [pyInt]
    decide
  have h := (random_audit_select_spec (List.range 100) (1/10) ⟨fun _ => 0, 0⟩
    (by simp) (List.nodup_range 100)).2 (by rw [hn]; simp)
  exact ⟨h.1.trans hn, h.2⟩

/-- Counterexample for C7 as stated: with 10 agents and rate 0.16 the
code truncates `int(1.6) = 1` and audits a single agent, while the
claimed `max(1, round(rate × |agents|))` demands 2. -/
theorem random_audit_select_counterexample :
    (random_audit_select (List.range 10) (4/25) ⟨fun _ => 0, 0⟩).length = 1
    ∧ random_audit_n_spec 10 (4/25) = 2 := by
  constructor
  · simp only [random_audit_select]
    have hn : (max 1 (pyInt (((List.range 10).length : ℚ) * (4/25)))).toNat = 1 := by
      norm_num [pyInt]
    rw [hn, if_neg (by simp), List.length_map, swapSample_length]
  · norm_num [random_audit_n_spec, round_eq]

theorem rational_choice_filter_nonneg (cfg : FilterConfig) (agent : Agent)
    (w : ℚ) : 0 ≤ rational_choice_filter cfg agent w := by
  simp only [rational_choice_filter]
  split_ifs <;> first
    | (rw [one_mul]; linarith)
    | norm_num

theorem apply_error_fst (cfg : ErrorCfg) (occ : Occupation)
    (attrs : BusinessAttrs) (agent : Agent) (r_fire u d : ℚ)
    (ht : 0 ≤ agent.true_income) :
    (apply_error cfg occ attrs agent r_fire u d).1
      = max 0 (agent.true_income - (apply_error cfg occ attrs agent r_fire u d).2.2) := by
  simp only [apply_error]
  split_ifs <;> simp [max_eq_right ht]

/-- Claim C2, amended: After every per-step decide call,
`declared_income ≥ 0`; `evaded_income ≥ 0` (hence `≥ -ε`) for the
dishonest pipeline, and for the honest pipeline whenever the drawn
error amount is non-negative (no error, or an under-report).  When an
honest over-report error fires, `evaded_income` equals the negative
error amount `-true_income × magnitude`, which is not bounded below by
`-ε`. -/
theorem decide_income_bounds (fcfg : FilterConfig) (ecfg : ErrorCfg)
    (occ : Occupation) (attrs : BusinessAttrs) (agent : Agent)
    (initial : Bool) (r_fire u d : ℚ)
    (ht : 0 ≤ agent.true_income) :
    0 ≤ honest_decide ecfg occ attrs agent initial r_fire u d
    ∧ 0 ≤ dishonest_decide fcfg occ agent initial
    ∧ 0 ≤ agent.true_income - dishonest_decide fcfg occ agent initial
    ∧ (0 ≤ (apply_error ecfg occ attrs agent r_fire u d).2.2 →
        0 ≤ agent.true_income - honest_decide ecfg occ attrs agent false r_fire u d)
    ∧ ((apply_error ecfg occ attrs agent r_fire u d).2.2 < 0 →
        agent.true_income - honest_decide ecfg occ attrs agent false r_fire u d
          = (apply_error ecfg occ attrs agent r_fire u d).2.2) := by
  have hfst := apply_error_fst ecfg occ attrs agent r_fire u d ht
  have hd : honest_decide ecfg occ attrs agent false r_fire u d
      = (apply_error ecfg occ attrs agent r_fire u d).1 := rfl
  refine ⟨?_, ?_, ?_, ?_, ?_⟩
  · cases initial with
    | true => simpa [honest_decide] using ht
    | false => rw [hd, hfst]; exact le_max_left _ _
  · simp only [dishonest_decide]
    exact le_max_left _ _
  · simp only [dishonest_decide]
    have hfe := rational_choice_filter_nonneg fcfg agent
      (if ¬ initial = true then
        social_influence_filter fcfg agent
          (normative_filter fcfg occ .dishonest agent (opportunity_filter agent))
          (opportunity_filter agent)
      else normative_filter fcfg occ .dishonest agent (opportunity_filter agent))
    rcases le_total 0 (agent.true_income - rational_choice_filter fcfg agent
      (if ¬ initial = true then
        social_influence_filter fcfg agent
          (normative_filter fcfg occ .dishonest agent (opportunity_filter agent))
          (opportunity_filter agent)
      else normative_filter fcfg occ .dishonest agent (opportunity_filter agent)))
      with hcase | hcase
    · rw [max_eq_right hcase]; linarith
    · rw [max_eq_left (by linarith)]; linarith
  · intro herr
    rw [hd, hfst]
    have hle : max 0 (agent.true_income -
        (apply_error ecfg occ attrs agent r_fire u d).2.2) ≤ agent.true_income :=
      max_le ht (by linarith)
    linarith
  · intro herr
    rw [hd, hfst, max_eq_right (by linarith)]
    ring

/-- Counterexample for C2 as stated: an honest over-report error
(`true_income = 1000`, magnitude 0.05, direction draw 0.9 against
`under_report_prob = 0.5`) declares 1050, so
`evaded_income = -50 < -ε = -0.01`. -/
theorem honest_overreport_counterexample :
    honest_decide
      ⟨true, 1/10, 1/10, 0, 0, 0, 0, 0, 0, 0, 0, 0, 0, 1, 5/100, 5/100, 1/2⟩
      .priv ⟨.medium, false, false, .small, false⟩
      ⟨1000, 1000, ⟨3, 50, 3, 3, 3, 3, 3⟩, 0, 0, 1/10, []⟩
      false 0 0 (9/10) = 1050
    ∧ (1000 : ℚ) - 1050 < -(1/100) := by
  constructor
  · norm_num [honest_decide, apply_error, calculate_error_probability,
      calculate_error_amount]
  · norm_num

/-- Witness for C2 (amended): concrete honest and dishonest decides are
non-negative. -/
theorem decide_income_bounds_witness :
    0 ≤ honest_decide
        ⟨true, 1/10, 1/10, 0, 0, 0, 0, 0, 0, 0, 0, 0, 0, 1, 5/100, 5/100, 1/2⟩
        .priv ⟨.medium, false, false, .small, false⟩
        ⟨1000, 1000, ⟨3, 50, 3, 3, 3, 3, 3⟩, 0, 0, 1/10, []⟩ false 0 0 0
    ∧ 0 ≤ dishonest_decide
        ⟨fun _ => ⟨1, 1, 1, 1, 1⟩, fun _ => 1, 1/2, 3, 3/10⟩
        .priv ⟨1000, 1000, ⟨3, 50, 3, 3, 3, 3, 3⟩, 0, 0, 1/10, []⟩ false := by
  have h := decide_income_bounds
    ⟨fun _ => ⟨1, 1, 1, 1, 1⟩, fun _ => 1, 1/2, 3, 3/10⟩
    ⟨true, 1/10, 1/10, 0, 0, 0, 0, 0, 0, 0, 0, 0, 0, 1, 5/100, 5/100, 1/2⟩
    .priv ⟨.medium, false, false, .small, false⟩
    ⟨1000, 1000, ⟨3, 50, 3, 3, 3, 3, 3⟩, 0, 0, 1/10, []⟩ false 0 0 0
    (by norm_num)
  exact ⟨h.1, h.2.1⟩

/-- Claim C6, amended: On every non-initial step the dishonest pipeline's
`social_influence_filter` blends the agent's own implied evasion rate
with the median previous-step evasion rate of **all** the agent's
neighbors with positive true income (no down-sampling), using weight
ω = `social_influence`, clips the blend to `[0,1]` and multiplies by
`max_concealable`; with no eligible neighbors the willingness is
returned unchanged. -/
theorem social_influence_filter_blend (cfg : FilterConfig) (occ : Occupation)
    (agent : Agent) (w maxC : ℚ) (hmc : 0 < maxC) :
    ((agent.neighbors.filter (fun n => 0 < n.true_income)).map
        (fun n => n.prev_evasion_rate) = [] →
      social_influence_filter cfg agent w maxC = w)
    ∧ ((agent.neighbors.filter (fun n => 0 < n.true_income)).map
        (fun n => n.prev_evasion_rate) ≠ [] →
      social_influence_filter cfg agent w maxC =
        clip ((1 - cfg.social_influence) * (w / maxC)
            + cfg.social_influence * pyMedian
              ((agent.neighbors.filter (fun n => 0 < n.true_income)).map
                (fun n => n.prev_evasion_rate))) 0 1 * maxC)
    ∧ dishonest_decide cfg occ agent false
        = max 0 (agent.true_income - rational_choice_filter cfg agent
            (social_influence_filter cfg agent
              (normative_filter cfg occ .dishonest agent (opportunity_filter agent))
              (opportunity_filter agent))) := by
  refine ⟨?_, ?_, rfl⟩
  · intro h
    simp only [social_influence_filter]
    rw [if_neg (not_le.2 hmc)]
    by_cases hn : agent.neighbors = []
    · rw [if_pos hn]
    · rw [if_neg hn, if_pos h]
  · intro h
    have hn : agent.neighbors ≠ [] := by
      intro hh
      apply h
      rw [hh]
      rfl
    simp only [social_influence_filter]
    rw [if_neg (not_le.2 hmc), if_neg hn, if_neg h]

/-- Witness for C6 (amended): one eligible neighbor with previous rate 1,
ω = 1/2, willingness 5, max_concealable 10 blends to rate 3/4 and
returns 15/2. -/
theorem social_influence_filter_blend_witness :
    social_influence_filter
      ⟨fun _ => ⟨1, 1, 1, 1, 1⟩, fun _ => 1, 1/2, 3, 3/10⟩
      ⟨100, 100, ⟨3, 50, 3, 3, 3, 3, 3⟩, 0, 0, 1/10, [⟨1, 1⟩]⟩ 5 10 = 15/2 := by
  have h := (social_influence_filter_blend
    ⟨fun _ => ⟨1, 1, 1, 1, 1⟩, fun _ => 1, 1/2, 3, 3/10⟩ .priv
    ⟨100, 100, ⟨3, 50, 3, 3, 3, 3, 3⟩, 0, 0, 1/10, [⟨1, 1⟩]⟩ 5 10
    (by norm_num)).2.1 (by norm_num)
  rw [h]
  norm_num [pyMedian, clip, List.insertionSort, List.orderedInsert]

/-- Counterexample for C6 as stated: the filter's median runs over all
eligible neighbors, not over a down-sampled interaction subset — with
rates `[1,1,0]`, ω = 1 and a mask keeping only the rate-0 neighbor, the
code yields the full `max_concealable` while the spec-modelled
down-sampled filter yields 0. -/
theorem social_influence_filter_downsample_counterexample :
    social_influence_filter
      ⟨fun _ => ⟨1, 1, 1, 1, 1⟩, fun _ => 1, 1, 3, 3/10⟩
      ⟨100, 100, ⟨3, 50, 3, 3, 3, 3, 3⟩, 0, 0, 1/10, [⟨1, 1⟩, ⟨1, 1⟩, ⟨1, 0⟩]⟩
      10 10 = 10
    ∧ social_influence_filter_downsampled
      ⟨fun _ => ⟨1, 1, 1, 1, 1⟩, fun _ => 1, 1, 3, 3/10⟩
      ⟨100, 100, ⟨3, 50, 3, 3, 3, 3, 3⟩, 0, 0, 1/10, [⟨1, 1⟩, ⟨1, 1⟩, ⟨1, 0⟩]⟩
      [false, false, true] 10 10 = 0 := by
  constructor <;>
    norm_num [social_influence_filter, social_influence_filter_downsampled,
      pyMedian, clip, List.insertionSort, List.orderedInsert]

theorem dom_update_sap (t : AgentTraits) (h : traitsInDomain t) (v : ℚ) :
    traitsInDomain { t with subjective_audit_prob := clip v 0 100 } := by
  obtain ⟨h1, h2, h3, h4, h5, h6, h7, h8, h9, h10, h11, h12, h13, h14⟩ := h
  exact ⟨h1, h2, h3, h4, h5, h6, h7, h8, h9, h10, h11, h12,
    clip_lb v 0 100 (by norm_num), clip_ub v 0 100 (by norm_num)⟩

theorem dom_update_pso (t : AgentTraits) (h : traitsInDomain t) (v : ℚ) :
    traitsInDomain { t with pso := clip v 1 5 } := by
  obtain ⟨h1, h2, h3, h4, h5, h6, h7, h8, h9, h10, h11, h12, h13, h14⟩ := h
  exact ⟨h1, h2, h3, h4, h5, h6, clip_lb v 1 5 (by norm_num),
    clip_ub v 1 5 (by norm_num), h9, h10, h11, h12, h13, h14⟩

theorem dom_update_trust (t : AgentTraits) (h : traitsInDomain t) (v : ℚ) :
    traitsInDomain { t with p_trust := clip v 1 5 } := by
  obtain ⟨h1, h2, h3, h4, h5, h6, h7, h8, h9, h10, h11, h12, h13, h14⟩ := h
  exact ⟨h1, h2, h3, h4, h5, h6, h7, h8, clip_lb v 1 5 (by norm_num),
    clip_ub v 1 5 (by norm_num), h11, h12, h13, h14⟩

theorem dom_update_sn (t : AgentTraits) (h : traitsInDomain t) (v : ℚ) :
    traitsInDomain { t with social_norms := clip v 1 5 } := by
  obtain ⟨h1, h2, h3, h4, h5, h6, h7, h8, h9, h10, h11, h12, h13, h14⟩ := h
  exact ⟨h1, h2, clip_lb v 1 5 (by norm_num), clip_ub v 1 5 (by norm_num),
    h5, h6, h7, h8, h9, h10, h11, h12, h13, h14⟩

theorem dom_update_stn (t : AgentTraits) (h : traitsInDomain t) (v : ℚ) :
    traitsInDomain { t with societal_norms := clip v 1 5 } := by
  obtain ⟨h1, h2, h3, h4, h5, h6, h7, h8, h9, h10, h11, h12, h13, h14⟩ := h
  exact ⟨h1, h2, h3, h4, clip_lb v 1 5 (by norm_num), clip_ub v 1 5 (by norm_num),
    h7, h8, h9, h10, h11, h12, h13, h14⟩

theorem dom_update_pn (t : AgentTraits) (h : traitsInDomain t) (v : ℚ) :
    traitsInDomain { t with personal_norms := clip v 1 5 } := by
  obtain ⟨h1, h2, h3, h4, h5, h6, h7, h8, h9, h10, h11, h12, h13, h14⟩ := h
  exact ⟨clip_lb v 1 5 (by norm_num), clip_ub v 1 5 (by norm_num), h3, h4, h5, h6,
    h7, h8, h9, h10, h11, h12, h13, h14⟩

theorem hashimzade_update_dom (audited : Bool) (coin : ℚ) (t : AgentTraits)
    (h : traitsInDomain t) :
    traitsInDomain (hashimzade_update_audit_belief audited coin t) := by
  simp only [hashimzade_update_audit_belief]
  split_ifs <;> exact dom_update_sap t h _

theorem custom_update_audit_belief_dom (cfg : BeliefCfg) (audited : Bool)
    (coin initial_audit_prob : ℚ) (t : AgentTraits) (h : traitsInDomain t) :
    traitsInDomain (custom_update_audit_belief cfg audited coin initial_audit_prob t) := by
  simp only [custom_update_audit_belief]
  split_ifs <;> exact dom_update_sap t h _

theorem custom_update_subjective_audit_prob_dom (cfg : BeliefCfg)
    (neighbors audited_neighbors : List ℚ) (t : AgentTraits)
    (h : traitsInDomain t) :
    traitsInDomain (custom_update_subjective_audit_prob cfg neighbors audited_neighbors t) := by
  simp only [custom_update_subjective_audit_prob]
  split_ifs <;> first
    | exact h
    | exact dom_update_sap t h _

theorem custom_update_trust_dom (cfg : TrustCfg) (audit : Option Bool)
    (coin : ℚ) (t : AgentTraits) (h : traitsInDomain t) :
    traitsInDomain (custom_update_trust cfg audit coin t) := by
  cases audit with
  | none => exact h
  | some c =>
    simp only [custom_update_trust]
    split_ifs <;> exact dom_update_trust t h _

theorem custom_update_pso_dom (cfg : PsoCfg) (occupation : Occupation)
    (phone_coin phone_sat_coin satisfaction huba_coin initial_pso : ℚ)
    (t : AgentTraits) (h : traitsInDomain t) :
    traitsInDomain (custom_update_pso cfg occupation phone_coin phone_sat_coin
      satisfaction huba_coin initial_pso t) := by
  simp only [custom_update_pso]
  split_ifs <;> exact dom_update_pso t h _

theorem custom_update_social_norms_dom (cfg : NormCfg) (occupation : Occupation)
    (neighbor_scores : List ℚ) (t : AgentTraits) (h : traitsInDomain t) :
    traitsInDomain (custom_update_social_norms cfg occupation neighbor_scores t) := by
  simp only [custom_update_social_norms]
  split_ifs <;> first
    | exact h
    | exact dom_update_sn t h _

theorem custom_update_societal_norms_dom (cfg : NormCfg) (occupation : Occupation)
    (societal_compliance : ℚ) (n_agents : ℕ) (t : AgentTraits)
    (h : traitsInDomain t) :
    traitsInDomain (custom_update_societal_norms cfg occupation societal_compliance n_agents t) := by
  simp only [custom_update_societal_norms]
  exact dom_update_stn t h _

theorem custom_update_dom (bcfg : BeliefCfg) (tcfg : TrustCfg) (pcfg : PsoCfg)
    (ncfg : NormCfg) (occupation : Occupation) (audit : Option Bool)
    (neighbors audited_neighbors neighbor_scores : List ℚ)
    (societal_compliance : ℚ) (n_agents : ℕ)
    (initial_audit_prob initial_pso : ℚ) (draws : CustomDraws)
    (t : AgentTraits) (h : traitsInDomain t) :
    traitsInDomain (custom_update bcfg tcfg pcfg ncfg occupation audit
      neighbors audited_neighbors neighbor_scores societal_compliance n_agents
      initial_audit_prob initial_pso draws t) := by
  unfold custom_update
  exact custom_update_societal_norms_dom _ _ _ _ _
    (custom_update_social_norms_dom _ _ _ _
      (custom_update_pso_dom _ _ _ _ _ _ _ _
        (custom_update_trust_dom _ _ _ _
          (custom_update_subjective_audit_prob_dom _ _ _ _
            (custom_update_audit_belief_dom _ _ _ _ _ h)))))

theorem apply_sap_delta_dom (perm temp : ℚ) (t : AgentTraits) (boost : ℚ)
    (h : traitsInDomain t) :
    traitsInDomain (apply_sap_delta perm temp t boost).1 := by
  simp only [apply_sap_delta]
  split_ifs <;> first
    | exact h
    | exact dom_update_sap t h _

theorem apply_pso_delta_dom (o : Option ℚ) (t : AgentTraits)
    (h : traitsInDomain t) : traitsInDomain (apply_pso_delta o t) := by
  cases o with
  | none => exact h
  | some d => exact dom_update_pso t h _

theorem apply_trust_delta_dom (o : Option ℚ) (t : AgentTraits)
    (h : traitsInDomain t) : traitsInDomain (apply_trust_delta o t) := by
  cases o with
  | none => exact h
  | some d => exact dom_update_trust t h _

theorem apply_social_delta_dom (o : Option ℚ) (t : AgentTraits)
    (h : traitsInDomain t) : traitsInDomain (apply_social_delta o t) := by
  cases o with
  | none => exact h
  | some d => exact dom_update_sn t h _

theorem apply_societal_delta_dom (o : Option ℚ) (t : AgentTraits)
    (h : traitsInDomain t) : traitsInDomain (apply_societal_delta o t) := by
  cases o with
  | none => exact h
  | some d => exact dom_update_stn t h _

theorem apply_personal_delta_dom (o : Option ℚ) (t : AgentTraits)
    (h : traitsInDomain t) : traitsInDomain (apply_personal_delta o t) := by
  cases o with
  | none => exact h
  | some d => exact dom_update_pn t h _

theorem apply_trait_deltas_dom (e : Effects) (t : AgentTraits) (boost : ℚ)
    (h : traitsInDomain t) :
    traitsInDomain (apply_trait_deltas e t boost).1 := by
  unfold apply_trait_deltas
  exact apply_personal_delta_dom _ _
    (apply_societal_delta_dom _ _
      (apply_social_delta_dom _ _
        (apply_trust_delta_dom _ _
          (apply_pso_delta_dom _ _
            (apply_sap_delta_dom _ _ _ _ h)))))

/-- Claim C4: Every trait mutation clamps immediately: starting from
in-domain traits, the Hashimzade audit-belief update, the full Custom
belief update (all six sub-updates in sequence), and the intervention
trait-delta helper all leave every `[1,5]`-domain trait in `[1,5]` and
`subjective_audit_prob` in `[0,100]`, for every configuration, every
neighbor context and every random draw. -/
theorem trait_mutations_stay_in_domain (t : AgentTraits)
    (h : traitsInDomain t)
    (bcfg : BeliefCfg) (tcfg : TrustCfg) (pcfg : PsoCfg) (ncfg : NormCfg)
    (occupation : Occupation) (audit : Option Bool)
    (neighbors audited_neighbors neighbor_scores : List ℚ)
    (societal_compliance : ℚ) (n_agents : ℕ)
    (initial_audit_prob initial_pso : ℚ) (draws : CustomDraws)
    (audited : Bool) (coin : ℚ) (e : Effects) (boost : ℚ) :
    traitsInDomain (hashimzade_update_audit_belief audited coin t)
    ∧ traitsInDomain (custom_update bcfg tcfg pcfg ncfg occupation audit
        neighbors audited_neighbors neighbor_scores societal_compliance n_agents
        initial_audit_prob initial_pso draws t)
    ∧ traitsInDomain (apply_trait_deltas e t boost).1 :=
  ⟨hashimzade_update_dom audited coin t h,
   custom_update_dom bcfg tcfg pcfg ncfg occupation audit neighbors
     audited_neighbors neighbor_scores societal_compliance n_agents
     initial_audit_prob initial_pso draws t h,
   apply_trait_deltas_dom e t boost h⟩

/-- Witness for C4: a concrete in-domain trait vector stays in domain
under a concrete Hashimzade update, Custom update and letter-delta
application. -/
theorem trait_mutations_stay_in_domain_witness :
    traitsInDomain (⟨3, 50, 3, 3, 3, 3, 3⟩ : AgentTraits)
    ∧ traitsInDomain (hashimzade_update_audit_belief true 0 ⟨3, 50, 3, 3, 3, 3, 3⟩)
    ∧ traitsInDomain (custom_update ⟨1/2, 1/10, 1/10, 10, 1/2, 1/10⟩
        ⟨1/2, 1/4⟩ ⟨1, 1/10, 1/10, 1/10, 1/2, 1/10, fun _ => ⟨1/2, 1/2, 3, 1, 1/100⟩⟩
        ⟨fun _ => 1/10, fun _ => 1/10⟩ .business (some true)
        [40, 60] [40] [1, -1/2] 10 20 50 3
        ⟨1/4, 1/4, 1/4, 1/4, 7/2, 1/4⟩ ⟨3, 50, 3, 3, 3, 3, 3⟩)
    ∧ traitsInDomain (apply_trait_deltas
        ⟨5, 10, none, some (1/2), some (-1/4), some (1/10), some (1/10), some (1/10)⟩
        ⟨3, 50, 3, 3, 3, 3, 3⟩ 0).1 := by
  have hdom : traitsInDomain (⟨3, 50, 3, 3, 3, 3, 3⟩ : AgentTraits) := by
    unfold traitsInDomain
    norm_num
  have h := trait_mutations_stay_in_domain ⟨3, 50, 3, 3, 3, 3, 3⟩ hdom
    ⟨1/2, 1/10, 1/10, 10, 1/2, 1/10⟩ ⟨1/2, 1/4⟩
    ⟨1, 1/10, 1/10, 1/10, 1/2, 1/10, fun _ => ⟨1/2, 1/2, 3, 1, 1/100⟩⟩
    ⟨fun _ => 1/10, fun _ => 1/10⟩ .business (some true)
    [40, 60] [40] [1, -1/2] 10 20 50 3
    ⟨1/4, 1/4, 1/4, 1/4, 7/2, 1/4⟩ true 0
    ⟨5, 10, none, some (1/2), some (-1/4), some (1/10), some (1/10), some (1/10)⟩ 0
  exact ⟨hdom, h.1, h.2.1, h.2.2⟩

/-- The running invariant of `compute_edges_numba`: the emitted edges
satisfy the graph invariant and the adjacency matrix holds exactly the
emitted edges (in both orientations). -/
def EdgeInv (s : EdgeState) : Prop :=
  edgesInvariant s.edges ∧
  ∀ u v : ℕ, (u, v) ∈ s.adj ↔ ((u, v) ∈ s.edges ∨ (v, u) ∈ s.edges)

theorem undirEdge_cases (a b c d : ℕ)
    (h : undirEdge (a, b) = undirEdge (c, d)) :
    (a = c ∧ b = d) ∨ (a = d ∧ b = c) := by
  simp only [undirEdge, Prod.mk.injEq] at h
  omega

theorem addEdge_inv (i t : ℕ) (s : EdgeState) (hinv : EdgeInv s)
    (hne : t ≠ i) (hadj : (i, t) ∉ s.adj) : EdgeInv (addEdge i t s) := by
  obtain ⟨⟨hself, hnodup⟩, hmatch⟩ := hinv
  refine ⟨⟨?_, ?_⟩, ?_⟩
  · intro e he
    simp only [addEdge, List.mem_append, List.mem_singleton] at he
    rcases he with he | rfl
    · exact hself e he
    · exact fun hc => hne (hc.symm)
  · simp only [addEdge, List.map_append, List.map_cons, List.map_nil]
    rw [List.nodup_append]
    refine ⟨hnodup, List.nodup_singleton _, ?_⟩
    intro x hx hx'
    simp only [List.mem_singleton] at hx'
    subst hx'
    obtain ⟨e, he, hue⟩ := List.mem_map.1 hx
    rcases undirEdge_cases e.1 e.2 i t (by simpa using hue) with ⟨h1, h2⟩ | ⟨h1, h2⟩
    · exact hadj ((hmatch i t).2 (Or.inl (by rw [← h1, ← h2]; exact he)))
    · exact hadj ((hmatch i t).2 (Or.inr (by rw [← h1, ← h2]; exact he)))
  · intro u v
    simp only [addEdge, Finset.mem_insert, List.mem_append, List.mem_singleton,
      hmatch u v, Prod.mk.injEq]
    constructor
    · rintro (⟨rfl, rfl⟩ | ⟨rfl, rfl⟩ | h | h)
      · exact Or.inl (Or.inr ⟨rfl, rfl⟩)
      · exact Or.inr (Or.inr ⟨rfl, rfl⟩)
      · exact Or.inl (Or.inl h)
      · exact Or.inr (Or.inl h)
    · rintro ((h | ⟨rfl, rfl⟩) | (h | ⟨rfl, rfl⟩))
      · exact Or.inr (Or.inr (Or.inl h))
      · exact Or.inl ⟨rfl, rfl⟩
      · exact Or.inr (Or.inr (Or.inr h))
      · exact Or.inr (Or.inl ⟨rfl, rfl⟩)

theorem addEdgesFor_adj_mem (i : ℕ) (ts : List ℕ) :
    ∀ (s : EdgeState) (u v : ℕ),
      (u, v) ∈ (addEdgesFor i ts s).adj ↔
        (u, v) ∈ s.adj ∨ ∃ x ∈ ts, (u, v) = (i, x) ∨ (u, v) = (x, i) := by
  induction ts with
  | nil => intro s u v; simp [addEdgesFor]
  | cons t ts ih =>
    intro s u v
    have hstep : addEdgesFor i (t :: ts) s = addEdgesFor i ts (addEdge i t s) := by
      simp [addEdgesFor]
    rw [hstep, ih]
    simp only [addEdge, Finset.mem_insert, List.mem_cons]
    constructor
    · rintro ((h | h | h) | ⟨x, hx, hxe⟩)
      · exact Or.inr ⟨t, Or.inl rfl, Or.inl h⟩
      · exact Or.inr ⟨t, Or.inl rfl, Or.inr h⟩
      · exact Or.inl h
      · exact Or.inr ⟨x, Or.inr hx, hxe⟩
    · rintro (h | ⟨x, (rfl | hx), (h | h)⟩)
      · exact Or.inl (Or.inr (Or.inr h))
      · exact Or.inl (Or.inl h)
      · exact Or.inl (Or.inr (Or.inl h))
      · exact Or.inr ⟨x, hx, Or.inl h⟩
      · exact Or.inr ⟨x, hx, Or.inr h⟩

theorem addEdgesFor_inv (i : ℕ) (ts : List ℕ) :
    ∀ (s : EdgeState), EdgeInv s → ts.Nodup →
      (∀ x ∈ ts, x ≠ i ∧ (i, x) ∉ s.adj) →
      EdgeInv (addEdgesFor i ts s) := by
  induction ts with
  | nil => intro s hinv _ _; exact hinv
  | cons t ts ih =>
    intro s hinv hnd hcond
    have hstep : addEdgesFor i (t :: ts) s = addEdgesFor i ts (addEdge i t s) := by
      simp [addEdgesFor]
    rw [hstep]
    obtain ⟨hti, htadj⟩ := hcond t (List.mem_cons_self t ts)
    have hinv' : EdgeInv (addEdge i t s) := addEdge_inv i t s hinv hti htadj
    refine ih (addEdge i t s) hinv' (List.nodup_cons.1 hnd).2 ?_
    intro x hx
    obtain ⟨hxi, hxadj⟩ := hcond x (List.mem_cons_of_mem t hx)
    refine ⟨hxi, ?_⟩
    simp only [addEdge, Finset.mem_insert, Prod.mk.injEq, true_and]
    rintro (rfl | ⟨hit, hxi'⟩ | h)
    · exact (List.nodup_cons.1 hnd).1 hx
    · exact hti hit.symm
    · exact hxadj h

theorem processCategory_inv (i : ℕ) (cands : List ℕ) (count : ℤ)
    (s : EdgeState) (g : RngN) (hinv : EdgeInv s) (hnd : cands.Nodup)
    (hcond : ∀ x ∈ cands, x ≠ i ∧ (i, x) ∉ s.adj) :
    EdgeInv (processCategory i cands count s g).1 := by
  simp only [processCategory]
  split_ifs with hskip
  · exact hinv
  · have hcnt : 0 + min count.toNat cands.length ≤ cands.length := by omega
    have hnd' := swapSample_nodup (min count.toNat cands.length) cands 0 g hnd hcnt
    have hmem : ∀ x ∈ (swapSample cands 0 (min count.toNat cands.length) g).1,
        x ∈ cands := by
      intro x hx
      have := swapSample_mem (min count.toNat cands.length) cands 0 g hcnt x hx
      rwa [List.drop_zero] at this
    exact addEdgesFor_inv i _ s hinv hnd' (fun x hx => hcond x (hmem x hx))

theorem processCategory_adj (i : ℕ) (cands : List ℕ) (count : ℤ)
    (s : EdgeState) (g : RngN) (u v : ℕ)
    (h : (u, v) ∈ (processCategory i cands count s g).1.adj) :
    (u, v) ∈ s.adj ∨ ∃ x ∈ cands, (u, v) = (i, x) ∨ (u, v) = (x, i) := by
  simp only [processCategory] at h
  split_ifs at h with hskip
  · exact Or.inl h
  · have hcnt : 0 + min count.toNat cands.length ≤ cands.length := by omega
    have hmem : ∀ x ∈ (swapSample cands 0 (min count.toNat cands.length) g).1,
        x ∈ cands := by
      intro x hx
      have := swapSample_mem (min count.toNat cands.length) cands 0 g hcnt x hx
      rwa [List.drop_zero] at this
    rcases (addEdgesFor_adj_mem i _ s u v).1 h with h' | ⟨x, hx, hxe⟩
    · exact Or.inl h'
    · exact Or.inr ⟨x, hmem x hx, hxe⟩

theorem processAgent_inv (n : ℕ) (groupIds targetDegrees : ℕ → ℕ)
    (homophily : ℚ) (sg : EdgeState × RngN) (i : ℕ)
    (hinv : EdgeInv sg.1) :
    EdgeInv (processAgent n groupIds targetDegrees homophily sg i).1 := by
  rcases sg with ⟨s, g⟩
  simp only [processAgent, roundCandidates]
  split_ifs with hneed
  · exact hinv
  · have hbase : ((List.range n).filter
        (fun j => decide (j ≠ i ∧ (i, j) ∉ s.adj))).Nodup :=
      (List.nodup_range n).filter _
    have hbasecond : ∀ x ∈ (List.range n).filter
        (fun j => decide (j ≠ i ∧ (i, j) ∉ s.adj)), x ≠ i ∧ (i, x) ∉ s.adj := by
      intro x hx
      have := (List.mem_filter.1 hx).2
      exact of_decide_eq_true this
    have hsame_nd : (((List.range n).filter
        (fun j => decide (j ≠ i ∧ (i, j) ∉ s.adj))).filter
          (fun j => decide (groupIds j = groupIds i))).Nodup :=
      hbase.filter _
    have hother_nd : (((List.range n).filter
        (fun j => decide (j ≠ i ∧ (i, j) ∉ s.adj))).filter
          (fun j => decide (groupIds j ≠ groupIds i))).Nodup :=
      hbase.filter _
    have hinv1 := processCategory_inv i _ (pyInt ((((targetDegrees i : ℤ) - (s.deg i : ℤ) : ℤ) : ℚ) * homophily)) s g hinv hsame_nd
      (fun x hx => hbasecond x (List.mem_of_mem_filter hx))
    refine processCategory_inv i _ _ _ _ hinv1 hother_nd ?_
    intro x hx
    have hxbase := hbasecond x (List.mem_of_mem_filter hx)
    have hxother := of_decide_eq_true (List.mem_filter.1 hx).2
    refine ⟨hxbase.1, ?_⟩
    intro hmem
    rcases processCategory_adj i _ _ s g i x hmem with h' | ⟨y, hy, hye⟩
    · exact hxbase.2 h'
    · have hysame := of_decide_eq_true (List.mem_filter.1 hy).2
      rcases hye with hye | hye
      · have hxy : x = y := by
          simpa [Prod.ext_iff] using hye
        exact hxother (hxy ▸ hysame)
      · have : i = y ∧ x = i := by
          simpa [Prod.ext_iff] using hye
        exact hxbase.1 this.2

theorem foldl_processAgent_inv (n : ℕ) (groupIds targetDegrees : ℕ → ℕ)
    (homophily : ℚ) :
    ∀ (l : List ℕ) (sg : EdgeState × RngN), EdgeInv sg.1 →
      EdgeInv (l.foldl (processAgent n groupIds targetDegrees homophily) sg).1 := by
  intro l
  induction l with
  | nil => intro sg h; exact h
  | cons i l ih =>
    intro sg h
    rw [List.foldl_cons]
    exact ih _ (processAgent_inv n groupIds targetDegrees homophily sg i h)

/-- Claim C9: Every edge list produced by
`NetworkBuilder.compute_edges_numba` — for every agent count, group
assignment, target-degree outcome, homophily value and random stream —
contains no self-loop and no duplicate undirected edge, so every graph
built by `NetworkBuilder.build` satisfies the spec's invariant. -/
theorem compute_edges_numba_invariant (n : ℕ)
    (groupIds targetDegrees : ℕ → ℕ) (homophily : ℚ) (g : RngN) :
    edgesInvariant (compute_edges_numba n groupIds targetDegrees homophily g) := by
  have hinit : EdgeInv ({ edges := [], adj := ∅, deg := fun _ => 0 } : EdgeState) := by
    refine ⟨⟨?_, ?_⟩, ?_⟩
    · intro e he; simp at he
    · simp
    · intro u v; simp
  exact (foldl_processAgent_inv n groupIds targetDegrees homophily
    (List.range n) _ hinit).1

/-- Claim C5, code evaluation at the failing input: the collected metric
of the decide phase depends on the per-step agent shuffle order, with
the very same `np.random` stream.  `TaxComplianceModel.__init__` seeds
only `np.random` (`np.random.seed(seed)`), while `super().__init__()`
is called without the seed, so the mesa `model.random` generator that
`agents.shuffle_do("step")` draws the order from stays entropy-seeded;
hence two same-seed runs generally produce different metric sequences. -/
theorem decide_phase_order_dependent :
    total_declared (decide_phase_honest
      ⟨true, 1/2, 1/2, 0, 0, 0, 0, 0, 0, 0, 0, 0, 0, 1, 1/10, 1/10, 1⟩
      [(1, ⟨1000, 1000, ⟨3, 50, 3, 3, 3, 3, 3⟩, 0, 0, 1/10, []⟩),
       (2, ⟨2000, 2000, ⟨3, 50, 3, 3, 3, 3, 3⟩, 0, 0, 1/10, []⟩)]
      ⟨fun n => if n = 3 then 3/4 else 0, 0⟩)
    ≠ total_declared (decide_phase_honest
      ⟨true, 1/2, 1/2, 0, 0, 0, 0, 0, 0, 0, 0, 0, 0, 1, 1/10, 1/10, 1⟩
      [(2, ⟨2000, 2000, ⟨3, 50, 3, 3, 3, 3, 3⟩, 0, 0, 1/10, []⟩),
       (1, ⟨1000, 1000, ⟨3, 50, 3, 3, 3, 3, 3⟩, 0, 0, 1/10, []⟩)]
      ⟨fun n => if n = 3 then 3/4 else 0, 0⟩) := by
  norm_num [decide_phase_honest, apply_error_rng, calculate_error_probability,
    calculate_error_amount, total_declared, RngQ.next]

end TaxForce
